import Mathlib

/-!
Monitors client (`monitors.go`).

A shallow embedding of the four monitor operations of the client
(`FindMonitors`, `CreateMonitor`, `UpdateMonitor`, `DeleteMonitor`) and of the
`Monitor` record with its `json:"...,omitempty"` tags.

The Go standard library the file calls is modelled next to it, at the level the
source uses it:

* `encoding/json`: a JSON text is identified with the value it denotes (so
  white space and string escapes are abstracted away), except number literals,
  which are kept verbatim because the decoder hands them to `strconv`;
  an ill-formed text is identified with the syntax error the scanner reports.
  Go strings are Lean strings, hence always valid UTF-8.
* `strconv.FormatFloat` / `strconv.ParseFloat` and `url.Parse` are parameters
  (`Lib`); nothing is assumed about them unless a theorem says so.
* `Client.urlFor` and `Client.Request` live in another file of the repository
  and are parameters too (`Client`).
* a response body is a reader with a state (`Body`): what it will deliver,
  whether reading reached the end, whether it has been closed.
-/

namespace Mackerel

/-! ## Errors -/

/-- The error values that flow through the four operations. -/
inductive Error where
  /-- Result of `errors.New(s)`. -/
  | errorString (s : String)
  /-- A `*json.SyntaxError`: message and offset. -/
  | SyntaxError (msg : String) (offset : Nat)
  /-- A `*json.UnmarshalTypeError`: description of the JSON value and name of the Go type. -/
  | UnmarshalTypeError (value : String) (goType : String)
  /-- A `*json.UnsupportedValueError`, with the text of the offending value. -/
  | UnsupportedValueError (str : String)
  /-- Any other error value (transport, URL parsing, body reader). -/
  | other (msg : String)
deriving DecidableEq

/-! ## float64 and uint64 -/

/-- An IEEE-754 binary64 value, by its three bit fields. -/
structure Float64 where
  sign : Bool
  exponent : Fin 2048
  fraction : Fin 4503599627370496
deriving DecidableEq

namespace Float64

/-- Positive zero, the zero value of `float64`. -/
def zero : Float64 := ⟨false, 0, 0⟩

/-- Go `f == 0`: true of both zeros. -/
def isZero (f : Float64) : Bool := f.exponent.val == 0 && f.fraction.val == 0

/-- Function `math.IsNaN`. -/
def IsNaN (f : Float64) : Bool := f.exponent.val == 2047 && f.fraction.val != 0

/-- Function `math.IsInf(f, 0)`. -/
def IsInf (f : Float64) : Bool := f.exponent.val == 2047 && f.fraction.val == 0

/-- The position of the highest set bit of `n`, for `n` below `2 ^ fuel`. -/
def highBit : Nat → Nat → Nat
  | 0, _ => 0
  | fuel + 1, n => if n < 2 then 0 else highBit fuel (n / 2) + 1

/-- The float64 of a natural number below `2^53` (exact); larger arguments are
folded into that range, the function is only used to write constants. -/
def ofNat (n : Nat) : Float64 :=
  let k := n % 9007199254740992
  if k = 0 then zero
  else
    let e := highBit 53 k
    ⟨false, Fin.ofNat (1023 + e), Fin.ofNat ((k - 2 ^ e) * 2 ^ (52 - e))⟩

end Float64

/-- Reads a run of decimal digits, most significant first, onto `acc`. -/
def parseDigits : List Char → Nat → Option Nat
  | [], acc => some acc
  | c :: cs, acc =>
    if 48 ≤ c.toNat ∧ c.toNat ≤ 57 then parseDigits cs (acc * 10 + (c.toNat - 48)) else none

/-- Function `strconv.ParseUint(s, 10, 64)`: a non-empty run of decimal digits
whose value fits 64 bits. -/
def ParseUint (s : String) : Option Nat :=
  if s.data.isEmpty then none
  else
    match parseDigits s.data 0 with
    | some n => if n < 18446744073709551616 then some n else none
    | none => none

/-- The character of a decimal digit. -/
def digitChar (d : Nat) : Char := Char.ofNat (48 + d)

/-- Writes the decimal digits of `n` in front of `acc`; `fuel` bounds the number of digits. -/
def formatDigits : Nat → Nat → List Char → List Char
  | 0, _, acc => acc
  | fuel + 1, n, acc =>
    if n < 10 then digitChar n :: acc
    else formatDigits fuel (n / 10) (digitChar (n % 10) :: acc)

/-- Function `strconv.FormatUint(n, 10)` for a 64-bit `n` (at most twenty digits). -/
def FormatUint (n : Nat) : String := String.mk (formatDigits 20 n [])

/-- A `*url.URL`, identified with its string form. -/
structure URL where
  text : String
deriving DecidableEq

/-- Method `(*url.URL).String`. -/
def URL.String (u : URL) : String := u.text

/-- The library functions the model leaves open. -/
structure Lib where
  /-- The float formatting the encoder uses (`strconv.AppendFloat`, shortest form). -/
  FormatFloat : Float64 → String
  /-- Function `strconv.ParseFloat(s, 64)`; `none` stands for an error. -/
  ParseFloat : String → Option Float64
  /-- Function `url.Parse`, on the string form of a URL. -/
  urlParse : String → Except Error URL

/-! ## JSON -/

/-- A JSON value. Number literals are kept as written. -/
inductive JSON where
  | null
  | bool (b : Bool)
  | number (lit : String)
  | string (s : String)
  | array (elems : List JSON)
  | object (members : List (String × JSON))

/-- How `UnmarshalTypeError.Value` describes a JSON value of the wrong kind. -/
def JSON.describe : JSON → String
  | .null => "null"
  | .bool _ => "bool"
  | .number _ => "number"
  | .string _ => "string"
  | .array _ => "array"
  | .object _ => "object"

/-- A byte sequence as `encoding/json` sees it. -/
inductive Text where
  /-- A well-formed JSON text, identified with its value. -/
  | wellFormed (v : JSON)
  /-- An ill-formed text (the empty one included), identified with the scanner error. -/
  | illFormed (msg : String) (offset : Nat)

/-! ## The Monitor record -/

/-- Monitor information (`type Monitor struct`). A slice is `none` when nil. -/
structure Monitor where
  ID : String := ""
  Name : String := ""
  /-- Field `Type` of the source (a reserved word here). -/
  Type_ : String := ""
  Metric : String := ""
  Operator : String := ""
  Warning : Float64 := Float64.zero
  Critical : Float64 := Float64.zero
  Duration : Nat := 0
  URL : String := ""
  Scopes : Option (List String) := none
  Service : String := ""
  MaxCheckAttempts : Float64 := Float64.zero
  ExcludeScopes : Option (List String) := none
  ResponseTimeCritical : Float64 := Float64.zero
  ResponseTimeWarning : Float64 := Float64.zero
  ResponseTimeDuration : Float64 := Float64.zero
deriving DecidableEq

/-- The fields of `Monitor`, in declaration order. -/
inductive Field where
  | ID | Name | Type_ | Metric | Operator | Warning | Critical | Duration | URL | Scopes
  | Service | MaxCheckAttempts | ExcludeScopes | ResponseTimeCritical
  | ResponseTimeWarning | ResponseTimeDuration
deriving DecidableEq

/-- All fields, in declaration order (the order the encoder visits them). -/
def Field.all : List Field :=
  [.ID, .Name, .Type_, .Metric, .Operator, .Warning, .Critical, .Duration, .URL, .Scopes,
   .Service, .MaxCheckAttempts, .ExcludeScopes, .ResponseTimeCritical,
   .ResponseTimeWarning, .ResponseTimeDuration]

/-- The key of a field, from its `json` tag. Every field is tagged `omitempty`. -/
def Field.name : Field → String
  | .ID => "id"
  | .Name => "name"
  | .Type_ => "type"
  | .Metric => "metric"
  | .Operator => "operator"
  | .Warning => "warning"
  | .Critical => "critical"
  | .Duration => "duration"
  | .URL => "url"
  | .Scopes => "scopes"
  | .Service => "service"
  | .MaxCheckAttempts => "maxCheckAttempts"
  | .ExcludeScopes => "excludeScopes"
  | .ResponseTimeCritical => "responseTimeCritical"
  | .ResponseTimeWarning => "responseTimeWarning"
  | .ResponseTimeDuration => "responseTimeDuration"

/-- A Go value of one of the four field types of `Monitor`, as reflection sees it. -/
inductive Value where
  | string (s : String)
  | float64 (f : Float64)
  | uint64 (n : Nat)
  | strings (xs : Option (List String))
deriving DecidableEq

/-- The name of the Go type of a value. -/
def Value.typeName : Value → String
  | .string _ => "string"
  | .float64 _ => "float64"
  | .uint64 _ => "uint64"
  | .strings _ => "[]string"

/-- Reads a field. -/
def Monitor.get (m : Monitor) : Field → Value
  | .ID => .string m.ID
  | .Name => .string m.Name
  | .Type_ => .string m.Type_
  | .Metric => .string m.Metric
  | .Operator => .string m.Operator
  | .Warning => .float64 m.Warning
  | .Critical => .float64 m.Critical
  | .Duration => .uint64 m.Duration
  | .URL => .string m.URL
  | .Scopes => .strings m.Scopes
  | .Service => .string m.Service
  | .MaxCheckAttempts => .float64 m.MaxCheckAttempts
  | .ExcludeScopes => .strings m.ExcludeScopes
  | .ResponseTimeCritical => .float64 m.ResponseTimeCritical
  | .ResponseTimeWarning => .float64 m.ResponseTimeWarning
  | .ResponseTimeDuration => .float64 m.ResponseTimeDuration

/-- Writes a field; a value of another type than the field leaves the record as it is. -/
def Monitor.set (m : Monitor) : Field → Value → Monitor
  | .ID, .string s => { m with ID := s }
  | .Name, .string s => { m with Name := s }
  | .Type_, .string s => { m with Type_ := s }
  | .Metric, .string s => { m with Metric := s }
  | .Operator, .string s => { m with Operator := s }
  | .Warning, .float64 f => { m with Warning := f }
  | .Critical, .float64 f => { m with Critical := f }
  | .Duration, .uint64 n => { m with Duration := n }
  | .URL, .string s => { m with URL := s }
  | .Scopes, .strings xs => { m with Scopes := xs }
  | .Service, .string s => { m with Service := s }
  | .MaxCheckAttempts, .float64 f => { m with MaxCheckAttempts := f }
  | .ExcludeScopes, .strings xs => { m with ExcludeScopes := xs }
  | .ResponseTimeCritical, .float64 f => { m with ResponseTimeCritical := f }
  | .ResponseTimeWarning, .float64 f => { m with ResponseTimeWarning := f }
  | .ResponseTimeDuration, .float64 f => { m with ResponseTimeDuration := f }
  | _, _ => m

/-! ## Encoding (`json.Marshal`) -/

/-- Function `isEmptyValue` of the encoder: what `omitempty` leaves out. -/
def isEmptyValue : Value → Bool
  | .string s => s.length == 0
  | .float64 f => f.isZero
  | .uint64 n => n == 0
  | .strings none => true
  | .strings (some xs) => xs.length == 0

/-- The encoder of one value. -/
def encodeValue (lib : Lib) : Value → Except Error JSON
  | .string s => .ok (.string s)
  | .float64 f =>
    if f.IsInf || f.IsNaN then .error (.UnsupportedValueError (lib.FormatFloat f))
    else .ok (.number (lib.FormatFloat f))
  | .uint64 n => .ok (.number (FormatUint n))
  | .strings none => .ok .null
  | .strings (some xs) => .ok (.array (xs.map JSON.string))

/-- The struct encoder over a list of fields: an empty field is skipped, the
others are written under their key, in order. -/
def encodeFields (lib : Lib) (m : Monitor) : List Field → Except Error (List (String × JSON))
  | [] => .ok []
  | f :: fs =>
    if isEmptyValue (m.get f) then encodeFields lib m fs
    else
      match encodeValue lib (m.get f) with
      | .error e => .error e
      | .ok j =>
        match encodeFields lib m fs with
        | .error e => .error e
        | .ok rest => .ok ((f.name, j) :: rest)

/-- Function `json.Marshal` on a `*Monitor`: a nil pointer is written `null`. -/
def Marshal (lib : Lib) : Option Monitor → Except Error Text
  | none => .ok (.wellFormed .null)
  | some m =>
    match encodeFields lib m Field.all with
    | .error e => .error e
    | .ok members => .ok (.wellFormed (.object members))

/-! ## Decoding (`json.Unmarshal`) -/

/-- Simple case folding of a code point, as far as it can reach an ASCII letter:
upper case to lower case, and the two other runes that fold to an ASCII
letter (U+017F to `s`, U+212A to `k`). -/
def foldRune (c : Nat) : Nat :=
  if 65 ≤ c ∧ c ≤ 90 then c + 32
  else if c = 383 then 115
  else if c = 8490 then 107
  else c

/-- The folded form of a key: two keys match case-insensitively when their folded forms agree. -/
def foldName (s : String) : List Nat := s.data.map (fun c => foldRune c.toNat)

/-- The field an object key is stored in: an exact match of the tag name is
preferred, a case-insensitive match is accepted; other keys have no field. -/
def Field.byName (key : String) : Option Field :=
  match Field.all.find? (fun f => f.name == key) with
  | some f => some f
  | none => Field.all.find? (fun f => foldName f.name == foldName key)

/-- Decoding of the elements of a JSON array into a fresh `[]string`: a string
is stored, `null` leaves the zero value, anything else is a type error. -/
def decodeStrings : List JSON → Except Error (List String)
  | [] => .ok []
  | j :: js =>
    match j with
    | .string s =>
      match decodeStrings js with
      | .error e => .error e
      | .ok rest => .ok (s :: rest)
    | .null =>
      match decodeStrings js with
      | .error e => .error e
      | .ok rest => .ok ("" :: rest)
    | other => .error (.UnmarshalTypeError other.describe "string")

/-- Decoding of a JSON value into a field that holds `old`: `null` sets a slice
to nil and leaves any other field as it is; a value of the right kind is
stored; a value of another kind, and a number literal `strconv` rejects, is a
type error. An array replaces the slice (length reset to zero, then one element
appended per array element; the empty array gives an empty non-nil slice). -/
def decodeValue (lib : Lib) (old : Value) (j : JSON) : Except Error Value :=
  match old, j with
  | .strings _, .null => .ok (.strings none)
  | v, .null => .ok v
  | .string _, .string s => .ok (.string s)
  | .float64 _, .number lit =>
    match lib.ParseFloat lit with
    | some f => .ok (.float64 f)
    | none => .error (.UnmarshalTypeError ("number " ++ lit) "float64")
  | .uint64 _, .number lit =>
    match ParseUint lit with
    | some n => .ok (.uint64 n)
    | none => .error (.UnmarshalTypeError ("number " ++ lit) "uint64")
  | .strings _, .array js =>
    match decodeStrings js with
    | .error e => .error e
    | .ok xs => .ok (.strings (some xs))
  | v, other => .error (.UnmarshalTypeError other.describe v.typeName)

/-- Decoding of the members of a JSON object into a `Monitor`, in order: a key
without a field is skipped. The first type error is the one reported (the
decoder saves it and goes on; its callers drop the record on an error). -/
def decodeMembers (lib : Lib) : Monitor → List (String × JSON) → Except Error Monitor
  | m, [] => .ok m
  | m, (key, j) :: rest =>
    match Field.byName key with
    | none => decodeMembers lib m rest
    | some f =>
      match decodeValue lib (m.get f) j with
      | .error e => .error e
      | .ok v => decodeMembers lib (m.set f v) rest

/-- Decoding of a JSON value into a `Monitor` variable holding `m`. -/
def decodeMonitor (lib : Lib) (m : Monitor) : JSON → Except Error Monitor
  | .null => .ok m
  | .object members => decodeMembers lib m members
  | other => .error (.UnmarshalTypeError other.describe "Monitor")

/-- Function `json.Unmarshal(data, &v)` for `v` a `Monitor` holding `m`: the
text is checked first, then decoded. -/
def Unmarshal (lib : Lib) (data : Text) (m : Monitor) : Except Error Monitor :=
  match data with
  | .illFormed msg offset => .error (.SyntaxError msg offset)
  | .wellFormed j => decodeMonitor lib m j

/-- The local `var data struct { Monitors []*(Monitor) }` of `FindMonitors`;
`none` is a nil slice or a nil pointer. -/
structure MonitorsData where
  Monitors : Option (List (Option Monitor)) := none

/-- Decoding of the elements of a JSON array into a fresh `[]*Monitor`: `null`
gives a nil pointer, another value is decoded into a new `Monitor`. -/
def decodeMonitorPtrs (lib : Lib) : List JSON → Except Error (List (Option Monitor))
  | [] => .ok []
  | j :: js =>
    match j with
    | .null =>
      match decodeMonitorPtrs lib js with
      | .error e => .error e
      | .ok rest => .ok (none :: rest)
    | other =>
      match decodeMonitor lib {} other with
      | .error e => .error e
      | .ok m =>
        match decodeMonitorPtrs lib js with
        | .error e => .error e
        | .ok rest => .ok (some m :: rest)

/-- Whether an object key is stored in the field tagged `monitors`. -/
def isMonitorsKey (key : String) : Bool := foldName key == foldName "monitors"

/-- Decoding of the members of a JSON object into `data`. -/
def decodeDataMembers (lib : Lib) : MonitorsData → List (String × JSON) → Except Error MonitorsData
  | d, [] => .ok d
  | d, (key, j) :: rest =>
    if isMonitorsKey key then
      match j with
      | .null => decodeDataMembers lib { Monitors := none } rest
      | .array js =>
        match decodeMonitorPtrs lib js with
        | .error e => .error e
        | .ok ms => decodeDataMembers lib { Monitors := some ms } rest
      | other => .error (.UnmarshalTypeError other.describe "[]*Monitor")
    else decodeDataMembers lib d rest

/-- Function `json.Unmarshal(body, &data)` in `FindMonitors`. -/
def UnmarshalData (lib : Lib) (body : Text) (d : MonitorsData) : Except Error MonitorsData :=
  match body with
  | .illFormed msg offset => .error (.SyntaxError msg offset)
  | .wellFormed .null => .ok d
  | .wellFormed (.object members) => decodeDataMembers lib d members
  | .wellFormed other => .error (.UnmarshalTypeError other.describe "struct")

/-! ## HTTP -/

/-- A `*http.Request`, as far as the source fills it. -/
structure HTTPRequest where
  Method : String
  URL : URL
  Header : List (String × String)
  Body : Option Text

/-- A response body (`io.ReadCloser`) and its state. -/
structure Body where
  /-- The bytes the server wrote. -/
  data : Text
  /-- The error the reader hits before the end of `data`, if any. -/
  readErr : Option Error
  /-- Whether a read has reached the end of the body. -/
  drained : Bool
  /-- Whether `Close` has been called. -/
  closed : Bool

/-- A `*http.Response`. -/
structure Response where
  StatusCode : Int
  Body : Body

/-- Function `ioutil.ReadAll`: reads until the end or the first error. -/
def ReadAll (b : Body) : Except Error Text × Body :=
  match b.readErr with
  | some e => (.error e, b)
  | none => (.ok b.data, { b with drained := true })

/-- Method `Close` of a response body. -/
def Body.Close (b : Body) : Body := { b with closed := true }

/-- Code points `net/http` accepts in a method name (token characters). -/
def isTokenRune (c : Nat) : Bool :=
  (48 ≤ c && c ≤ 57) || (65 ≤ c && c ≤ 90) || (97 ≤ c && c ≤ 122) ||
  [33, 35, 36, 37, 38, 39, 42, 43, 45, 46, 94, 95, 96, 124, 126].contains c

/-- Function `validMethod` of `net/http`. -/
def validMethod (method : String) : Bool :=
  method.length > 0 && method.data.all (fun c => isTokenRune c.toNat)

/-- Function `http.NewRequest`: the method is checked, the URL parsed. -/
def NewRequest (lib : Lib) (method : String) (url : String) (body : Option Text) :
    Except Error HTTPRequest :=
  let method := if method = "" then "GET" else method
  if validMethod method then
    match lib.urlParse url with
    | .error e => .error e
    | .ok u => .ok { Method := method, URL := u, Header := [], Body := body }
  else .error (.other ("net/http: invalid method " ++ method))

/-- Method `req.Header.Add`. -/
def HTTPRequest.addHeader (req : HTTPRequest) (key value : String) : HTTPRequest :=
  { req with Header := req.Header ++ [(key, value)] }

/-- The part of `Client` the operations use; both functions are defined elsewhere in the repository. -/
structure Client where
  /-- Method `urlFor`: the URL of a path under the base URL. -/
  urlFor : String → URL
  /-- Method `Request`: sends a request. -/
  Request : HTTPRequest → Except Error Response

/-- What a call leaves behind: its result, the requests it handed to
`Client.Request` (oldest first), and the body of the response, as the call
leaves it, when a response arrived. -/
structure Outcome (α : Type) where
  result : Except Error α
  sent : List HTTPRequest
  body : Option Body

/-! ## The four operations -/

/-- FindMonitors find monitors. -/
def FindMonitors (lib : Lib) (c : Client) : Outcome (Option (List (Option Monitor))) :=
  match NewRequest lib "GET" (c.urlFor "/api/v0/monitors").String none with
  | .error err => ⟨.error err, [], none⟩
  | .ok req =>
    match c.Request req with
    | .error err => ⟨.error err, [req], none⟩
    | .ok resp =>
      -- defer resp.Body.Close()
      if resp.StatusCode ≠ 200 then
        ⟨.error (.errorString "status code is not 200"), [req], some resp.Body.Close⟩
      else
        match ReadAll resp.Body with
        | (.error err, b) => ⟨.error err, [req], some b.Close⟩
        | (.ok body, b) =>
          match UnmarshalData lib body {} with
          | .error err => ⟨.error err, [req], some b.Close⟩
          | .ok data => ⟨.ok data.Monitors, [req], some b.Close⟩

/-- CreateMonitor creating monitor. -/
def CreateMonitor (lib : Lib) (c : Client) (param : Option Monitor) : Outcome Monitor :=
  match Marshal lib param with
  | .error err => ⟨.error err, [], none⟩
  | .ok requestJSON =>
    match NewRequest lib "POST" (c.urlFor "/api/v0/monitors").String (some requestJSON) with
    | .error err => ⟨.error err, [], none⟩
    | .ok req0 =>
      let req := req0.addHeader "Content-Type" "application/json"
      match c.Request req with
      | .error err => ⟨.error err, [req], none⟩
      | .ok resp =>
        -- defer resp.Body.Close()
        match ReadAll resp.Body with
        | (.error err, b) => ⟨.error err, [req], some b.Close⟩
        | (.ok body, b) =>
          match Unmarshal lib body {} with
          | .error err => ⟨.error err, [req], some b.Close⟩
          | .ok data => ⟨.ok data, [req], some b.Close⟩

/-- UpdateMonitor update monitor. -/
def UpdateMonitor (lib : Lib) (c : Client) (monitorID : String) (param : Option Monitor) :
    Outcome Monitor :=
  match Marshal lib param with
  | .error err => ⟨.error err, [], none⟩
  | .ok requestJSON =>
    match NewRequest lib "PUT" (c.urlFor ("/api/v0/monitors/" ++ monitorID)).String
        (some requestJSON) with
    | .error err => ⟨.error err, [], none⟩
    | .ok req0 =>
      let req := req0.addHeader "Content-Type" "application/json"
      match c.Request req with
      | .error err => ⟨.error err, [req], none⟩
      | .ok resp =>
        -- defer resp.Body.Close()
        match ReadAll resp.Body with
        | (.error err, b) => ⟨.error err, [req], some b.Close⟩
        | (.ok body, b) =>
          match Unmarshal lib body {} with
          | .error err => ⟨.error err, [req], some b.Close⟩
          | .ok data => ⟨.ok data, [req], some b.Close⟩

/-- DeleteMonitor update monitor. -/
def DeleteMonitor (lib : Lib) (c : Client) (monitorID : String) : Outcome Monitor :=
  match NewRequest lib "DELETE" (c.urlFor ("/api/v0/monitors/" ++ monitorID)).String none with
  | .error err => ⟨.error err, [], none⟩
  | .ok req0 =>
    let req := req0.addHeader "Content-Type" "application/json"
    match c.Request req with
    | .error err => ⟨.error err, [req], none⟩
    | .ok resp =>
      -- defer resp.Body.Close()
      match ReadAll resp.Body with
      | (.error err, b) => ⟨.error err, [req], some b.Close⟩
      | (.ok body, b) =>
        match Unmarshal lib body {} with
        | .error err => ⟨.error err, [req], some b.Close⟩
        | .ok data => ⟨.ok data, [req], some b.Close⟩

/-! ## A concrete library and client, for evaluation -/

/-- The natural number a float64 holds, when it is a non-negative integer below `2^53`. -/
def Float64.toNat? (f : Float64) : Option Nat :=
  if f.sign then none
  else if f.exponent.val = 0 then (if f.fraction.val = 0 then some 0 else none)
  else if 1023 ≤ f.exponent.val ∧ f.exponent.val ≤ 1075 then
    let shift := 1075 - f.exponent.val
    if f.fraction.val % 2 ^ shift = 0 then some ((4503599627370496 + f.fraction.val) / 2 ^ shift)
    else none
  else none

/-- Drops a fraction made of zeros only (`.0`, `.00`, ...) from a literal. -/
def dropZeroFraction : List Char → List Char
  | [] => []
  | c :: cs =>
    if c.toNat = 46 then (if cs.all (fun d => d.toNat = 48) && !cs.isEmpty then [] else c :: cs)
    else c :: dropZeroFraction cs

/-- A `strconv` for the float64 values that are natural numbers below `2^53`:
such a value is written as its decimal digits, and a literal of digits, with
or without a fraction of zeros, is read as the value it denotes. Other values
are written `?` and other literals are rejected. The URL parser rejects a
string with an ASCII control character and accepts the others as they are. -/
def natLib : Lib where
  FormatFloat f :=
    match f.toNat? with
    | some n => String.mk (formatDigits 20 n [])
    | none => "?"
  ParseFloat s :=
    match dropZeroFraction s.data with
    | [] => none
    | cs =>
      match parseDigits cs 0 with
      | some n => if n < 9007199254740992 then some (Float64.ofNat n) else none
      | none => none
  urlParse s :=
    if s.data.any (fun c => c.toNat < 32 || c.toNat = 127) then
      .error (.other "net/url: invalid control character in URL")
    else .ok ⟨s⟩

/-- A response body nobody has touched yet, delivering `data` without a read error. -/
def freshBody (data : Text) : Body := ⟨data, none, false, false⟩

/-- A client under the base URL `https://api.mackerelio.com` whose transport
answers every request with the given status and body. -/
def answering (status : Int) (body : Body) : Client where
  urlFor path := ⟨"https://api.mackerelio.com" ++ path⟩
  Request _ := .ok ⟨status, body⟩

/-- A client under the same base URL whose transport fails every request with `e`. -/
def failing (e : Error) : Client where
  urlFor path := ⟨"https://api.mackerelio.com" ++ path⟩
  Request _ := .error e

/-! ## Notions the statements use -/

/-- The lines `CreateMonitor`, `UpdateMonitor` and `DeleteMonitor` have in
common, from `c.Request(req)` on; the lemmas about them are stated once, here. -/
def exchange (lib : Lib) (c : Client) (req : HTTPRequest) : Outcome Monitor :=
  match c.Request req with
  | .error err => ⟨.error err, [req], none⟩
  | .ok resp =>
    match ReadAll resp.Body with
    | (.error err, b) => ⟨.error err, [req], some b.Close⟩
    | (.ok body, b) =>
      match Unmarshal lib body {} with
      | .error err => ⟨.error err, [req], some b.Close⟩
      | .ok data => ⟨.ok data, [req], some b.Close⟩

/-- The request `CreateMonitor` builds. -/
def createRequest (lib : Lib) (c : Client) (param : Option Monitor) : Except Error HTTPRequest :=
  match Marshal lib param with
  | .error err => .error err
  | .ok requestJSON =>
    match NewRequest lib "POST" (c.urlFor "/api/v0/monitors").String (some requestJSON) with
    | .error err => .error err
    | .ok req0 => .ok (req0.addHeader "Content-Type" "application/json")

/-- The request `UpdateMonitor` builds. -/
def updateRequest (lib : Lib) (c : Client) (monitorID : String) (param : Option Monitor) :
    Except Error HTTPRequest :=
  match Marshal lib param with
  | .error err => .error err
  | .ok requestJSON =>
    match NewRequest lib "PUT" (c.urlFor ("/api/v0/monitors/" ++ monitorID)).String
        (some requestJSON) with
    | .error err => .error err
    | .ok req0 => .ok (req0.addHeader "Content-Type" "application/json")

/-- The request `DeleteMonitor` builds. -/
def deleteRequest (lib : Lib) (c : Client) (monitorID : String) : Except Error HTTPRequest :=
  match NewRequest lib "DELETE" (c.urlFor ("/api/v0/monitors/" ++ monitorID)).String none with
  | .error err => .error err
  | .ok req0 => .ok (req0.addHeader "Content-Type" "application/json")

/-- The errors `json.Unmarshal` reports. -/
def Error.isDecodeError : Error → Bool
  | .SyntaxError _ _ => true
  | .UnmarshalTypeError _ _ => true
  | _ => false

/-- Two transports that, on every request, fail alike or answer with the same
body (the status codes are free to differ). -/
def sameUpToStatus (c d : Client) : Prop :=
  c.urlFor = d.urlFor ∧
  ∀ req, match c.Request req, d.Request req with
    | .error e, .error e2 => e = e2
    | .ok r, .ok r2 => r.Body = r2.Body
    | _, _ => False

/-- The composition the round-trip property is about: `json.Marshal` of a
record, then `json.Unmarshal` of the text into a fresh `Monitor`. -/
def decodeEncode (lib : Lib) (m : Monitor) : Except Error Monitor :=
  match Marshal lib (some m) with
  | .error e => .error e
  | .ok text => Unmarshal lib text {}

/-- A value the wire format carries unchanged: a float64 is positive zero, or
a non-zero finite number that `strconv` reads back from what it wrote; a
uint64 is in range; a slice is nil or has an element. -/
def Value.stable (lib : Lib) : Value → Bool
  | .string _ => true
  | .float64 f =>
    if f.isZero then f == Float64.zero
    else !f.IsNaN && !f.IsInf && lib.ParseFloat (lib.FormatFloat f) == some f
  | .uint64 n => n < 18446744073709551616
  | .strings none => true
  | .strings (some xs) => xs.length != 0

/-- A record all of whose fields are stable. -/
def Monitor.stable (lib : Lib) (m : Monitor) : Bool :=
  Field.all.all (fun f => (m.get f).stable lib)

/-- The zero value of the type of a value. -/
def Value.zeroLike : Value → Value
  | .string _ => .string ""
  | .float64 _ => .float64 Float64.zero
  | .uint64 _ => .uint64 0
  | .strings _ => .strings none

/-! ## The records and the response of the examples -/

/-- The host monitor of the creation scenario. -/
def hostMonitor : Monitor :=
  { Name := "disk.aa-00.writes.delta", Type_ := "host", Metric := "disk.aa-00.writes.delta",
    Operator := ">", Warning := Float64.ofNat 20000, Critical := Float64.ofNat 400000,
    Duration := 3, Scopes := some ["SomeService"] }

/-- The encoding of `hostMonitor`. -/
def hostMonitorJSON : JSON :=
  .object [("name", .string "disk.aa-00.writes.delta"), ("type", .string "host"),
    ("metric", .string "disk.aa-00.writes.delta"), ("operator", .string ">"),
    ("warning", .number "20000"), ("critical", .number "400000"), ("duration", .number "3"),
    ("scopes", .array [.string "SomeService"])]

/-- The first record of the example response: a connectivity monitor whose two
slices are empty, not nil. -/
def connectivityMonitor : Monitor :=
  { ID := "2cSZzK3XfmG", Type_ := "connectivity", Scopes := some [], ExcludeScopes := some [] }

/-- The second record of the example response. -/
def listedHostMonitor : Monitor :=
  { ID := "2cSZzK3XfmG", Type_ := "host", Name := "disk.aa-00.writes.delta", Duration := 3,
    Metric := "disk.aa-00.writes.delta", Operator := ">", Warning := Float64.ofNat 20000,
    Critical := Float64.ofNat 400000, Scopes := some ["SomeService"],
    ExcludeScopes := some ["SomeService: db-slave-backup"] }

/-- The third record of the example response. -/
def serviceMonitor : Monitor :=
  { ID := "2cSZzK3XfmG", Type_ := "service", Name := "SomeService - custom.access_num.4xx_count",
    Service := "SomeService", Duration := 1, Metric := "custom.access_num.4xx_count",
    Operator := ">", Warning := Float64.ofNat 50, Critical := Float64.ofNat 100 }

/-- The fourth record of the example response. -/
def externalMonitor : Monitor :=
  { ID := "2cSZzK3XfmG", Type_ := "external", Name := "example.com",
    URL := "http://www.example.com" }

/-- The elements of the `monitors` array of the example response in the comment of the source. -/
def exampleElems : List JSON :=
  [.object [("id", .string "2cSZzK3XfmG"), ("type", .string "connectivity"),
      ("scopes", .array []), ("excludeScopes", .array [])],
   .object [("id", .string "2cSZzK3XfmG"), ("type", .string "host"),
      ("name", .string "disk.aa-00.writes.delta"), ("duration", .number "3"),
      ("metric", .string "disk.aa-00.writes.delta"), ("operator", .string ">"),
      ("warning", .number "20000.0"), ("critical", .number "400000.0"),
      ("scopes", .array [.string "SomeService"]),
      ("excludeScopes", .array [.string "SomeService: db-slave-backup"])],
   .object [("id", .string "2cSZzK3XfmG"), ("type", .string "service"),
      ("name", .string "SomeService - custom.access_num.4xx_count"),
      ("service", .string "SomeService"), ("duration", .number "1"),
      ("metric", .string "custom.access_num.4xx_count"), ("operator", .string ">"),
      ("warning", .number "50.0"), ("critical", .number "100.0")],
   .object [("id", .string "2cSZzK3XfmG"), ("type", .string "external"),
      ("name", .string "example.com"), ("url", .string "http://www.example.com")]]

/-- The example response in the comment of the source. -/
def exampleBody : Text := .wellFormed (.object [("monitors", .array exampleElems)])

/-- A body whose reader fails before the end. -/
def brokenBody : Body := ⟨.illFormed "unexpected end of JSON input" 0,
  some (.other "unexpected EOF"), false, false⟩

/-- The body the server of the creation scenario answers with: the record it
was sent, with the id it assigned. -/
def createdBody : Text :=
  .wellFormed (.object [("id", .string "2cSZzK3XfmG"), ("name", .string "disk.aa-00.writes.delta"),
    ("type", .string "host"), ("metric", .string "disk.aa-00.writes.delta"),
    ("operator", .string ">"), ("warning", .number "20000"), ("critical", .number "400000"),
    ("duration", .number "3"), ("scopes", .array [.string "SomeService"])])

/-- A JSON value that is an object whose members decode into the record `m`. -/
def representsMonitor (lib : Lib) (j : JSON) (m : Monitor) : Prop :=
  ∃ members, j = .object members ∧ decodeMembers lib {} members = .ok m

/-! ## The requests the operations send -/

theorem FindMonitors_sent_of_request (lib : Lib) (c : Client) (req : HTTPRequest)
    (h : NewRequest lib "GET" (c.urlFor "/api/v0/monitors").String none = .ok req) :
    (FindMonitors lib c).sent = [req] := by
  unfold FindMonitors
  rw [h]
  dsimp only
  repeat' split
  all_goals rfl

theorem FindMonitors_request_of_sent (lib : Lib) (c : Client) (req : HTTPRequest)
    (h : (FindMonitors lib c).sent = [req]) :
    NewRequest lib "GET" (c.urlFor "/api/v0/monitors").String none = .ok req := by
  cases hreq : NewRequest lib "GET" (c.urlFor "/api/v0/monitors").String none with
  | error e =>
    unfold FindMonitors at h
    rw [hreq] at h
    simp at h
  | ok r =>
    have := FindMonitors_sent_of_request lib c r hreq
    rw [this] at h
    simp at h
    rw [h]

theorem CreateMonitor_eq (lib : Lib) (c : Client) (param : Option Monitor) :
    CreateMonitor lib c param =
      match createRequest lib c param with
      | .error err => ⟨.error err, [], none⟩
      | .ok req => exchange lib c req := by
  unfold CreateMonitor createRequest exchange
  cases Marshal lib param with
  | error e => rfl
  | ok t =>
    dsimp only
    cases NewRequest lib "POST" (c.urlFor "/api/v0/monitors").String (some t) with
    | error e => rfl
    | ok r => rfl

theorem UpdateMonitor_eq (lib : Lib) (c : Client) (monitorID : String) (param : Option Monitor) :
    UpdateMonitor lib c monitorID param =
      match updateRequest lib c monitorID param with
      | .error err => ⟨.error err, [], none⟩
      | .ok req => exchange lib c req := by
  unfold UpdateMonitor updateRequest exchange
  cases Marshal lib param with
  | error e => rfl
  | ok t =>
    dsimp only
    cases NewRequest lib "PUT" (c.urlFor ("/api/v0/monitors/" ++ monitorID)).String (some t) with
    | error e => rfl
    | ok r => rfl

theorem DeleteMonitor_eq (lib : Lib) (c : Client) (monitorID : String) :
    DeleteMonitor lib c monitorID =
      match deleteRequest lib c monitorID with
      | .error err => ⟨.error err, [], none⟩
      | .ok req => exchange lib c req := by
  unfold DeleteMonitor deleteRequest exchange
  cases NewRequest lib "DELETE" (c.urlFor ("/api/v0/monitors/" ++ monitorID)).String none with
  | error e => rfl
  | ok r => rfl

theorem exchange_sent (lib : Lib) (c : Client) (req : HTTPRequest) :
    (exchange lib c req).sent = [req] := by
  unfold exchange
  repeat' split
  all_goals rfl

theorem CreateMonitor_request_of_sent (lib : Lib) (c : Client) (param : Option Monitor)
    (req : HTTPRequest) (h : (CreateMonitor lib c param).sent = [req]) :
    createRequest lib c param = .ok req := by
  rw [CreateMonitor_eq] at h
  cases hreq : createRequest lib c param with
  | error e => rw [hreq] at h; simp at h
  | ok r =>
    rw [hreq] at h
    simp only [exchange_sent] at h
    simp at h
    rw [h]

theorem UpdateMonitor_request_of_sent (lib : Lib) (c : Client) (monitorID : String)
    (param : Option Monitor) (req : HTTPRequest)
    (h : (UpdateMonitor lib c monitorID param).sent = [req]) :
    updateRequest lib c monitorID param = .ok req := by
  rw [UpdateMonitor_eq] at h
  cases hreq : updateRequest lib c monitorID param with
  | error e => rw [hreq] at h; simp at h
  | ok r =>
    rw [hreq] at h
    simp only [exchange_sent] at h
    simp at h
    rw [h]

theorem DeleteMonitor_request_of_sent (lib : Lib) (c : Client) (monitorID : String)
    (req : HTTPRequest) (h : (DeleteMonitor lib c monitorID).sent = [req]) :
    deleteRequest lib c monitorID = .ok req := by
  rw [DeleteMonitor_eq] at h
  cases hreq : deleteRequest lib c monitorID with
  | error e => rw [hreq] at h; simp at h
  | ok r =>
    rw [hreq] at h
    simp only [exchange_sent] at h
    simp at h
    rw [h]

theorem ReadAll_of_no_error (b : Body) (h : b.readErr = none) :
    ReadAll b = (.ok b.data, { b with drained := true }) := by
  unfold ReadAll
  rw [h]

theorem exchange_result_of_error (lib : Lib) (c : Client) (req : HTTPRequest) (e : Error)
    (h : c.Request req = .error e) : (exchange lib c req).result = .error e := by
  unfold exchange
  rw [h]

theorem exchange_result_of_response (lib : Lib) (c : Client) (req : HTTPRequest)
    (resp : Response) (h : c.Request req = .ok resp) (hread : resp.Body.readErr = none) :
    (exchange lib c req).result = Unmarshal lib resp.Body.data {} := by
  unfold exchange
  rw [h]
  dsimp only
  rw [ReadAll_of_no_error _ hread]
  dsimp only
  cases Unmarshal lib resp.Body.data {} <;> rfl

/-! ## Status codes and transport errors -/

theorem FindMonitors_result_of_response (lib : Lib) (c : Client) (req : HTTPRequest)
    (resp : Response) (hsent : (FindMonitors lib c).sent = [req])
    (hresp : c.Request req = .ok resp) :
    (FindMonitors lib c).result =
      if resp.StatusCode ≠ 200 then .error (.errorString "status code is not 200")
      else
        match (ReadAll resp.Body).1 with
        | .error err => .error err
        | .ok body =>
          match UnmarshalData lib body {} with
          | .error err => .error err
          | .ok data => .ok data.Monitors := by
  have hreq := FindMonitors_request_of_sent lib c req hsent
  unfold FindMonitors
  rw [hreq]
  dsimp only
  rw [hresp]
  dsimp only
  by_cases hstatus : resp.StatusCode ≠ 200
  · rw [if_pos hstatus, if_pos hstatus]
  · rw [if_neg hstatus, if_neg hstatus]
    unfold ReadAll
    cases resp.Body.readErr with
    | some e => rfl
    | none =>
      dsimp only
      cases UnmarshalData lib resp.Body.data {} <;> rfl

/-- C2: whenever the transport answers the request of `FindMonitors` with a
status code other than 200, whatever the body, the call fails with the error
"status code is not 200" (and so returns no sequence). -/
theorem FindMonitors_status_not_200 (lib : Lib) (c : Client) (req : HTTPRequest)
    (resp : Response) (hsent : (FindMonitors lib c).sent = [req])
    (hresp : c.Request req = .ok resp) (hstatus : resp.StatusCode ≠ 200) :
    (FindMonitors lib c).result = .error (.errorString "status code is not 200") := by
  rw [FindMonitors_result_of_response lib c req resp hsent hresp, if_pos hstatus]

theorem FindMonitors_status_not_200_witness :
    (FindMonitors natLib (answering 404 (freshBody (.wellFormed (.object []))))).result
      = .error (.errorString "status code is not 200") :=
  FindMonitors_status_not_200 natLib (answering 404 (freshBody (.wellFormed (.object []))))
    ⟨"GET", ⟨"https://api.mackerelio.com/api/v0/monitors"⟩, [], none⟩
    ⟨404, freshBody (.wellFormed (.object []))⟩ (by rfl) (by rfl) (by decide)

/-- C8: for each of the four operations, when the transport fails the request
the operation hands it with an error `e`, the operation returns exactly `e`,
unchanged, and no record. -/
theorem transport_error_verbatim (lib : Lib) (c : Client) (e : Error) :
    (∀ req, (FindMonitors lib c).sent = [req] → c.Request req = .error e →
      (FindMonitors lib c).result = .error e) ∧
    (∀ param req, (CreateMonitor lib c param).sent = [req] → c.Request req = .error e →
      (CreateMonitor lib c param).result = .error e) ∧
    (∀ monitorID param req, (UpdateMonitor lib c monitorID param).sent = [req] →
      c.Request req = .error e → (UpdateMonitor lib c monitorID param).result = .error e) ∧
    (∀ monitorID req, (DeleteMonitor lib c monitorID).sent = [req] →
      c.Request req = .error e → (DeleteMonitor lib c monitorID).result = .error e) := by
  refine ⟨?_, ?_, ?_, ?_⟩
  · intro req hsent herr
    have hreq := FindMonitors_request_of_sent lib c req hsent
    unfold FindMonitors
    rw [hreq]
    dsimp only
    rw [herr]
  · intro param req hsent herr
    have hreq := CreateMonitor_request_of_sent lib c param req hsent
    rw [CreateMonitor_eq, hreq]
    exact exchange_result_of_error lib c req e herr
  · intro monitorID param req hsent herr
    have hreq := UpdateMonitor_request_of_sent lib c monitorID param req hsent
    rw [UpdateMonitor_eq, hreq]
    exact exchange_result_of_error lib c req e herr
  · intro monitorID req hsent herr
    have hreq := DeleteMonitor_request_of_sent lib c monitorID req hsent
    rw [DeleteMonitor_eq, hreq]
    exact exchange_result_of_error lib c req e herr

theorem transport_error_verbatim_witness :
    (FindMonitors natLib (failing (.other "dial tcp: connection refused"))).result
        = .error (.other "dial tcp: connection refused") ∧
    (CreateMonitor natLib (failing (.other "dial tcp: connection refused")) (some {})).result
        = .error (.other "dial tcp: connection refused") ∧
    (UpdateMonitor natLib (failing (.other "dial tcp: connection refused")) "2cSZzK3XfmG"
        (some {})).result = .error (.other "dial tcp: connection refused") ∧
    (DeleteMonitor natLib (failing (.other "dial tcp: connection refused")) "2cSZzK3XfmG").result
        = .error (.other "dial tcp: connection refused") :=
  ⟨(transport_error_verbatim natLib _ _).1
      ⟨"GET", ⟨"https://api.mackerelio.com/api/v0/monitors"⟩, [], none⟩ (by rfl) (by rfl),
    (transport_error_verbatim natLib _ _).2.1 (some {})
      ⟨"POST", ⟨"https://api.mackerelio.com/api/v0/monitors"⟩,
        [("Content-Type", "application/json")], some (.wellFormed (.object []))⟩
      (by rfl) (by rfl),
    (transport_error_verbatim natLib _ _).2.2.1 "2cSZzK3XfmG" (some {})
      ⟨"PUT", ⟨"https://api.mackerelio.com/api/v0/monitors/2cSZzK3XfmG"⟩,
        [("Content-Type", "application/json")], some (.wellFormed (.object []))⟩
      (by rfl) (by rfl),
    (transport_error_verbatim natLib _ _).2.2.2 "2cSZzK3XfmG"
      ⟨"DELETE", ⟨"https://api.mackerelio.com/api/v0/monitors/2cSZzK3XfmG"⟩,
        [("Content-Type", "application/json")], none⟩
      (by rfl) (by rfl)⟩

/-! ## The requests of Update and Delete -/

theorem NewRequest_of_url (lib : Lib) (method url : String) (body : Option Text) (u : URL)
    (hm : validMethod method = true) (hne : method ≠ "") (hurl : lib.urlParse url = .ok u) :
    NewRequest lib method url body = .ok ⟨method, u, [], body⟩ := by
  unfold NewRequest
  simp only [if_neg hne, hm, if_true, hurl]

/-- C5: when the encoding of the input `m` succeeds (and the URL of the path
`/api/v0/monitors/` followed by the id parses), `UpdateMonitor` hands the
transport exactly one request: a PUT to that URL whose body is the JSON
encoding of `m`, as `json.Marshal` returned it. -/
theorem UpdateMonitor_request (lib : Lib) (c : Client) (monitorID : String) (m : Monitor)
    (text : Text) (u : URL) (henc : Marshal lib (some m) = .ok text)
    (hurl : lib.urlParse (c.urlFor ("/api/v0/monitors/" ++ monitorID)).String = .ok u) :
    (UpdateMonitor lib c monitorID (some m)).sent
      = [⟨"PUT", u, [("Content-Type", "application/json")], some text⟩] := by
  have hreq : updateRequest lib c monitorID (some m)
      = .ok ⟨"PUT", u, [("Content-Type", "application/json")], some text⟩ := by
    unfold updateRequest
    rw [henc]
    dsimp only
    rw [NewRequest_of_url lib "PUT" _ (some text) u (by decide) (by decide) hurl]
    rfl
  rw [UpdateMonitor_eq, hreq]
  exact exchange_sent lib c _

theorem UpdateMonitor_request_witness :
    (UpdateMonitor natLib (answering 200 (freshBody createdBody)) "2cSZzK3XfmG"
        (some hostMonitor)).sent
      = [⟨"PUT", ⟨"https://api.mackerelio.com/api/v0/monitors/2cSZzK3XfmG"⟩,
          [("Content-Type", "application/json")], some (.wellFormed hostMonitorJSON)⟩] :=
  UpdateMonitor_request natLib (answering 200 (freshBody createdBody)) "2cSZzK3XfmG"
    hostMonitor (.wellFormed hostMonitorJSON)
    ⟨"https://api.mackerelio.com/api/v0/monitors/2cSZzK3XfmG"⟩ (by rfl) (by rfl)

/-- C6: when the URL of the path `/api/v0/monitors/` followed by the id parses,
`DeleteMonitor` hands the transport exactly one request, a DELETE to that URL
without a body; and whatever response the transport returns, once its body has
been read, the result is that of decoding the body as one `Monitor`: the
decoded record, or the decoding error. -/
theorem DeleteMonitor_spec (lib : Lib) (c : Client) (monitorID : String) (u : URL)
    (hurl : lib.urlParse (c.urlFor ("/api/v0/monitors/" ++ monitorID)).String = .ok u) :
    (DeleteMonitor lib c monitorID).sent
      = [⟨"DELETE", u, [("Content-Type", "application/json")], none⟩] ∧
    ∀ resp, c.Request ⟨"DELETE", u, [("Content-Type", "application/json")], none⟩ = .ok resp →
      resp.Body.readErr = none →
      (DeleteMonitor lib c monitorID).result = Unmarshal lib resp.Body.data {} := by
  have hreq : deleteRequest lib c monitorID
      = .ok ⟨"DELETE", u, [("Content-Type", "application/json")], none⟩ := by
    unfold deleteRequest
    rw [NewRequest_of_url lib "DELETE" _ none u (by decide) (by decide) hurl]
    rfl
  rw [DeleteMonitor_eq, hreq]
  exact ⟨exchange_sent lib c _, fun resp hresp hread =>
    exchange_result_of_response lib c _ resp hresp hread⟩

theorem DeleteMonitor_spec_witness :
    (DeleteMonitor natLib (answering 200 (freshBody createdBody)) "2cSZzK3XfmG").sent
      = [⟨"DELETE", ⟨"https://api.mackerelio.com/api/v0/monitors/2cSZzK3XfmG"⟩,
          [("Content-Type", "application/json")], none⟩] ∧
    (DeleteMonitor natLib (answering 200 (freshBody createdBody)) "2cSZzK3XfmG").result
      = Unmarshal natLib createdBody {} :=
  ⟨(DeleteMonitor_spec natLib (answering 200 (freshBody createdBody)) "2cSZzK3XfmG"
      ⟨"https://api.mackerelio.com/api/v0/monitors/2cSZzK3XfmG"⟩ (by rfl)).1,
    (DeleteMonitor_spec natLib (answering 200 (freshBody createdBody)) "2cSZzK3XfmG"
      ⟨"https://api.mackerelio.com/api/v0/monitors/2cSZzK3XfmG"⟩ (by rfl)).2
      ⟨200, freshBody createdBody⟩ (by rfl) (by rfl)⟩

/-! ## The errors of the decoder -/

theorem decodeStrings_error (js : List JSON) (e : Error) (h : decodeStrings js = .error e) :
    e.isDecodeError = true := by
  induction js with
  | nil => simp [decodeStrings] at h
  | cons j js ih =>
    unfold decodeStrings at h
    split at h
    · cases hrest : decodeStrings js with
      | error e2 => rw [hrest] at h; cases h; exact ih hrest
      | ok rest => rw [hrest] at h; cases h
    · cases hrest : decodeStrings js with
      | error e2 => rw [hrest] at h; cases h; exact ih hrest
      | ok rest => rw [hrest] at h; cases h
    · cases h; rfl

theorem decodeValue_error (lib : Lib) (old : Value) (j : JSON) (e : Error)
    (h : decodeValue lib old j = .error e) : e.isDecodeError = true := by
  unfold decodeValue at h
  split at h
  · cases h
  · cases h
  · cases h
  · split at h
    · cases h
    · cases h; rfl
  · split at h
    · cases h
    · cases h; rfl
  · rename_i js
    cases hs : decodeStrings js with
    | error e2 => rw [hs] at h; cases h; exact decodeStrings_error js _ hs
    | ok xs => rw [hs] at h; cases h
  · cases h; rfl

theorem decodeMembers_error (lib : Lib) (members : List (String × JSON)) :
    ∀ (m : Monitor) (e : Error), decodeMembers lib m members = .error e →
      e.isDecodeError = true := by
  induction members with
  | nil => intro m e h; simp [decodeMembers] at h
  | cons kv rest ih =>
    intro m e h
    obtain ⟨key, j⟩ := kv
    unfold decodeMembers at h
    split at h
    · exact ih m e h
    · rename_i f hf
      cases hv : decodeValue lib (m.get f) j with
      | error e2 => rw [hv] at h; cases h; exact decodeValue_error lib _ _ _ hv
      | ok v => rw [hv] at h; exact ih _ e h

theorem decodeMonitor_error (lib : Lib) (m : Monitor) (j : JSON) (e : Error)
    (h : decodeMonitor lib m j = .error e) : e.isDecodeError = true := by
  unfold decodeMonitor at h
  split at h
  · cases h
  · exact decodeMembers_error lib _ m e h
  · cases h; rfl

theorem Unmarshal_error (lib : Lib) (data : Text) (m : Monitor) (e : Error)
    (h : Unmarshal lib data m = .error e) : e.isDecodeError = true := by
  unfold Unmarshal at h
  split at h
  · cases h; rfl
  · exact decodeMonitor_error lib m _ e h

theorem decodeMonitorPtrs_error (lib : Lib) (js : List JSON) (e : Error)
    (h : decodeMonitorPtrs lib js = .error e) : e.isDecodeError = true := by
  induction js with
  | nil => simp [decodeMonitorPtrs] at h
  | cons j js ih =>
    unfold decodeMonitorPtrs at h
    split at h
    · cases hrest : decodeMonitorPtrs lib js with
      | error e2 => rw [hrest] at h; cases h; exact ih hrest
      | ok rest => rw [hrest] at h; cases h
    · rename_i other hother
      cases hm : decodeMonitor lib {} j with
      | error e2 => rw [hm] at h; cases h; exact decodeMonitor_error lib _ _ _ hm
      | ok m =>
        rw [hm] at h
        cases hrest : decodeMonitorPtrs lib js with
        | error e2 => rw [hrest] at h; cases h; exact ih hrest
        | ok rest => rw [hrest] at h; cases h

theorem decodeDataMembers_error (lib : Lib) (members : List (String × JSON)) :
    ∀ (d : MonitorsData) (e : Error), decodeDataMembers lib d members = .error e →
      e.isDecodeError = true := by
  induction members with
  | nil => intro d e h; simp [decodeDataMembers] at h
  | cons kv rest ih =>
    intro d e h
    obtain ⟨key, j⟩ := kv
    unfold decodeDataMembers at h
    split at h
    · split at h
      · exact ih _ e h
      · rename_i js
        cases hs : decodeMonitorPtrs lib js with
        | error e2 => rw [hs] at h; cases h; exact decodeMonitorPtrs_error lib js _ hs
        | ok ms => rw [hs] at h; exact ih _ e h
      · cases h; rfl
    · exact ih d e h

theorem UnmarshalData_error (lib : Lib) (body : Text) (d : MonitorsData) (e : Error)
    (h : UnmarshalData lib body d = .error e) : e.isDecodeError = true := by
  unfold UnmarshalData at h
  split at h
  · cases h; rfl
  · cases h
  · exact decodeDataMembers_error lib _ d e h
  · cases h; rfl

/-! ## Independence of the status code -/

theorem exchange_result_congr (lib : Lib) (c d : Client) (h : sameUpToStatus c d)
    (req : HTTPRequest) : (exchange lib c req).result = (exchange lib d req).result := by
  have hreq := h.2 req
  unfold exchange
  cases hc : c.Request req with
  | error e =>
    cases hd : d.Request req with
    | error e2 => rw [hc, hd] at hreq; dsimp only at hreq; rw [hreq]
    | ok r2 => rw [hc, hd] at hreq; exact hreq.elim
  | ok r =>
    cases hd : d.Request req with
    | error e2 => rw [hc, hd] at hreq; exact hreq.elim
    | ok r2 =>
      rw [hc, hd] at hreq
      dsimp only at hreq
      dsimp only
      rw [hreq]

theorem exchange_not_status_error (lib : Lib) (c : Client) (req : HTTPRequest) (resp : Response)
    (hresp : c.Request req = .ok resp) (hread : resp.Body.readErr = none) (s : String) :
    (exchange lib c req).result ≠ .error (.errorString s) := by
  rw [exchange_result_of_response lib c req resp hresp hread]
  intro h
  have := Unmarshal_error lib _ _ _ h
  simp [Error.isDecodeError] at this

/-- C9: the result of `CreateMonitor`, `UpdateMonitor` and `DeleteMonitor` does
not depend on the status code: two transports that answer every request with
the same body (or fail alike) give the same result, whatever the status codes.
None of the three reports "status code is not 200" once a response has
arrived and its body has been read; and `FindMonitors`, in that situation,
reports it exactly when the status is not 200. -/
theorem status_code_only_in_FindMonitors (lib : Lib) (c : Client) :
    (∀ d, sameUpToStatus c d →
      (∀ param, (CreateMonitor lib c param).result = (CreateMonitor lib d param).result) ∧
      (∀ monitorID param, (UpdateMonitor lib c monitorID param).result
          = (UpdateMonitor lib d monitorID param).result) ∧
      (∀ monitorID, (DeleteMonitor lib c monitorID).result
          = (DeleteMonitor lib d monitorID).result)) ∧
    (∀ req resp, c.Request req = .ok resp → resp.Body.readErr = none →
      (∀ param, (CreateMonitor lib c param).sent = [req] →
        (CreateMonitor lib c param).result ≠ .error (.errorString "status code is not 200")) ∧
      (∀ monitorID param, (UpdateMonitor lib c monitorID param).sent = [req] →
        (UpdateMonitor lib c monitorID param).result
          ≠ .error (.errorString "status code is not 200")) ∧
      (∀ monitorID, (DeleteMonitor lib c monitorID).sent = [req] →
        (DeleteMonitor lib c monitorID).result
          ≠ .error (.errorString "status code is not 200")) ∧
      ((FindMonitors lib c).sent = [req] →
        ((FindMonitors lib c).result = .error (.errorString "status code is not 200")
          ↔ resp.StatusCode ≠ 200))) := by
  refine ⟨?_, ?_⟩
  · intro d h
    refine ⟨?_, ?_, ?_⟩
    · intro param
      have hr : createRequest lib d param = createRequest lib c param := by
        unfold createRequest; rw [h.1]
      rw [CreateMonitor_eq, CreateMonitor_eq, hr]
      cases createRequest lib c param with
      | error e => rfl
      | ok req => exact exchange_result_congr lib c d h req
    · intro monitorID param
      have hr : updateRequest lib d monitorID param = updateRequest lib c monitorID param := by
        unfold updateRequest; rw [h.1]
      rw [UpdateMonitor_eq, UpdateMonitor_eq, hr]
      cases updateRequest lib c monitorID param with
      | error e => rfl
      | ok req => exact exchange_result_congr lib c d h req
    · intro monitorID
      have hr : deleteRequest lib d monitorID = deleteRequest lib c monitorID := by
        unfold deleteRequest; rw [h.1]
      rw [DeleteMonitor_eq, DeleteMonitor_eq, hr]
      cases deleteRequest lib c monitorID with
      | error e => rfl
      | ok req => exact exchange_result_congr lib c d h req
  · intro req resp hresp hread
    refine ⟨?_, ?_, ?_, ?_⟩
    · intro param hsent
      rw [CreateMonitor_eq, CreateMonitor_request_of_sent lib c param req hsent]
      exact exchange_not_status_error lib c req resp hresp hread _
    · intro monitorID param hsent
      rw [UpdateMonitor_eq, UpdateMonitor_request_of_sent lib c monitorID param req hsent]
      exact exchange_not_status_error lib c req resp hresp hread _
    · intro monitorID hsent
      rw [DeleteMonitor_eq, DeleteMonitor_request_of_sent lib c monitorID req hsent]
      exact exchange_not_status_error lib c req resp hresp hread _
    · intro hsent
      rw [FindMonitors_result_of_response lib c req resp hsent hresp]
      constructor
      · intro hres hstatus
        rw [if_neg (not_not.mpr hstatus), ReadAll_of_no_error _ hread] at hres
        dsimp only at hres
        cases hd : UnmarshalData lib resp.Body.data {} with
        | error e =>
          rw [hd] at hres
          dsimp only at hres
          have := UnmarshalData_error lib _ _ _ hd
          cases hres
          simp [Error.isDecodeError] at this
        | ok data =>
          rw [hd] at hres
          cases hres
      · intro hstatus
        rw [if_pos hstatus]

theorem status_code_only_in_FindMonitors_witness :
    (CreateMonitor natLib (answering 200 (freshBody createdBody)) (some hostMonitor)).result
        = (CreateMonitor natLib (answering 500 (freshBody createdBody))
            (some hostMonitor)).result ∧
    (CreateMonitor natLib (answering 500 (freshBody createdBody)) (some hostMonitor)).result
        ≠ .error (.errorString "status code is not 200") :=
  ⟨((status_code_only_in_FindMonitors natLib (answering 200 (freshBody createdBody))).1
      (answering 500 (freshBody createdBody)) ⟨rfl, fun _ => rfl⟩).1 (some hostMonitor),
    ((status_code_only_in_FindMonitors natLib (answering 500 (freshBody createdBody))).2
      ⟨"POST", ⟨"https://api.mackerelio.com/api/v0/monitors"⟩,
        [("Content-Type", "application/json")], some (.wellFormed hostMonitorJSON)⟩
      ⟨500, freshBody createdBody⟩ (by rfl) (by rfl)).1 (some hostMonitor) (by rfl)⟩

/-! ## Closing and draining the response body -/

theorem exchange_body (lib : Lib) (c : Client) (req : HTTPRequest) (resp : Response)
    (hresp : c.Request req = .ok resp) :
    ∃ b, (exchange lib c req).body = some b ∧ b.closed = true ∧
      (resp.Body.readErr = none → b.drained = true) := by
  unfold exchange
  rw [hresp]
  dsimp only
  cases hread : resp.Body.readErr with
  | some e =>
    refine ⟨resp.Body.Close, ?_, rfl, fun h => by cases h⟩
    unfold ReadAll
    rw [hread]
  | none =>
    rw [ReadAll_of_no_error _ hread]
    dsimp only
    refine ⟨Body.Close { resp.Body with drained := true }, ?_, rfl, fun _ => rfl⟩
    cases Unmarshal lib resp.Body.data {} <;> rfl

/-- C10 (amended): for each of the four operations and every response the
transport returns, the response body has been closed when the operation
returns, on every path; it has been read to its end whenever the body could be
read without an error and, in `FindMonitors`, the status was 200. -/
theorem response_body_closed (lib : Lib) (c : Client) (req : HTTPRequest) (resp : Response)
    (hresp : c.Request req = .ok resp) :
    ((FindMonitors lib c).sent = [req] →
      ∃ b, (FindMonitors lib c).body = some b ∧ b.closed = true ∧
        (resp.StatusCode = 200 → resp.Body.readErr = none → b.drained = true)) ∧
    (∀ param, (CreateMonitor lib c param).sent = [req] →
      ∃ b, (CreateMonitor lib c param).body = some b ∧ b.closed = true ∧
        (resp.Body.readErr = none → b.drained = true)) ∧
    (∀ monitorID param, (UpdateMonitor lib c monitorID param).sent = [req] →
      ∃ b, (UpdateMonitor lib c monitorID param).body = some b ∧ b.closed = true ∧
        (resp.Body.readErr = none → b.drained = true)) ∧
    (∀ monitorID, (DeleteMonitor lib c monitorID).sent = [req] →
      ∃ b, (DeleteMonitor lib c monitorID).body = some b ∧ b.closed = true ∧
        (resp.Body.readErr = none → b.drained = true)) := by
  refine ⟨?_, ?_, ?_, ?_⟩
  · intro hsent
    have hreq := FindMonitors_request_of_sent lib c req hsent
    unfold FindMonitors
    rw [hreq]
    dsimp only
    rw [hresp]
    dsimp only
    by_cases hstatus : resp.StatusCode = 200
    · rw [if_neg (not_not.mpr hstatus)]
      cases hread : resp.Body.readErr with
      | some e =>
        refine ⟨resp.Body.Close, ?_, rfl, fun _ h => by cases h⟩
        unfold ReadAll
        rw [hread]
      | none =>
        rw [ReadAll_of_no_error _ hread]
        dsimp only
        refine ⟨Body.Close { resp.Body with drained := true }, ?_, rfl, fun _ _ => rfl⟩
        cases UnmarshalData lib resp.Body.data {} <;> rfl
    · rw [if_pos hstatus]
      exact ⟨resp.Body.Close, rfl, rfl, fun h => (hstatus h).elim⟩
  · intro param hsent
    rw [CreateMonitor_eq, CreateMonitor_request_of_sent lib c param req hsent]
    exact exchange_body lib c req resp hresp
  · intro monitorID param hsent
    rw [UpdateMonitor_eq, UpdateMonitor_request_of_sent lib c monitorID param req hsent]
    exact exchange_body lib c req resp hresp
  · intro monitorID hsent
    rw [DeleteMonitor_eq, DeleteMonitor_request_of_sent lib c monitorID req hsent]
    exact exchange_body lib c req resp hresp

theorem response_body_closed_witness :
    ∃ b, (FindMonitors natLib (answering 200 (freshBody exampleBody))).body = some b ∧
      b.closed = true ∧
      ((200 : Int) = 200 → (freshBody exampleBody).readErr = none → b.drained = true) :=
  (response_body_closed natLib (answering 200 (freshBody exampleBody))
    ⟨"GET", ⟨"https://api.mackerelio.com/api/v0/monitors"⟩, [], none⟩
    ⟨200, freshBody exampleBody⟩ (by rfl)).1 (by rfl)

/-- C10 fails as stated: answered with status 404, `FindMonitors` returns with
the response body closed but never read; and when reading the body fails,
`CreateMonitor` returns with the body closed but not read to its end. -/
theorem body_closed_but_not_drained :
    (FindMonitors natLib (answering 404 (freshBody exampleBody))).body.map
        (fun b => (b.drained, b.closed)) = some (false, true) ∧
    (CreateMonitor natLib (answering 200 brokenBody) (some hostMonitor)).body.map
        (fun b => (b.drained, b.closed)) = some (false, true) :=
  ⟨by rfl, by rfl⟩

/-! ## Omission of empty fields -/

theorem Field.name_injective (f g : Field) (h : f.name = g.name) : f = g := by
  cases f <;> cases g <;> first | rfl | (exact absurd h (by decide))

theorem encodeFields_keys (lib : Lib) (m : Monitor) (fs : List Field) :
    ∀ members, encodeFields lib m fs = .ok members →
      members.map Prod.fst
        = (fs.filter (fun f => !isEmptyValue (m.get f))).map Field.name := by
  induction fs with
  | nil =>
    intro members h
    simp only [encodeFields, Except.ok.injEq] at h
    subst h
    rfl
  | cons f fs ih =>
    intro members h
    unfold encodeFields at h
    by_cases hempty : isEmptyValue (m.get f) = true
    · rw [if_pos hempty] at h
      rw [ih members h, List.filter_cons_of_neg (by simp [hempty])]
    · rw [if_neg hempty] at h
      cases hv : encodeValue lib (m.get f) with
      | error e => rw [hv] at h; cases h
      | ok j =>
        rw [hv] at h
        dsimp only at h
        cases hrest : encodeFields lib m fs with
        | error e => rw [hrest] at h; cases h
        | ok rest =>
          rw [hrest] at h
          cases h
          rw [List.filter_cons_of_pos (by simp [hempty])]
          simp only [List.map_cons, ih rest hrest]

theorem Marshal_some (lib : Lib) (m : Monitor) :
    Marshal lib (some m) =
      match encodeFields lib m Field.all with
      | .error e => .error e
      | .ok members => .ok (.wellFormed (.object members)) := rfl

theorem Field.mem_all (f : Field) : f ∈ Field.all := by
  cases f <;> decide

/-- C7: when encoding a `Monitor` produces a text, that text is a JSON object
which holds the key of a field exactly when the field is not empty (a non-empty
string, a non-zero number, a slice with an element), and holds no other key;
the keys come in the order of the fields. The all-empty `Monitor` encodes to
the empty object. -/
theorem Marshal_omits_empty_fields (lib : Lib) (m : Monitor) (text : Text)
    (h : Marshal lib (some m) = .ok text) :
    (∃ members, text = .wellFormed (.object members) ∧
      (∀ f : Field, f.name ∈ members.map Prod.fst ↔ isEmptyValue (m.get f) = false) ∧
      (∀ key ∈ members.map Prod.fst, ∃ f : Field, f.name = key) ∧
      members.map Prod.fst
        = (Field.all.filter (fun f => !isEmptyValue (m.get f))).map Field.name) ∧
    Marshal lib (some {}) = .ok (.wellFormed (.object [])) := by
  refine ⟨?_, rfl⟩
  rw [Marshal_some] at h
  cases hf : encodeFields lib m Field.all with
  | error e => rw [hf] at h; cases h
  | ok members =>
    rw [hf] at h
    cases h
    have hkeys := encodeFields_keys lib m Field.all members hf
    refine ⟨members, rfl, ?_, ?_, hkeys⟩
    · intro f
      rw [hkeys, List.mem_map]
      constructor
      · rintro ⟨g, hg, hname⟩
        have := Field.name_injective g f hname
        subst this
        simpa using (List.mem_filter.mp hg).2
      · intro hne
        exact ⟨f, List.mem_filter.mpr ⟨Field.mem_all f, by simp [hne]⟩, rfl⟩
    · intro key hkey
      rw [hkeys, List.mem_map] at hkey
      obtain ⟨g, _, hname⟩ := hkey
      exact ⟨g, hname⟩

theorem Marshal_omits_empty_fields_witness :
    Marshal natLib (some hostMonitor) = .ok (.wellFormed hostMonitorJSON) ∧
    (∃ members, Text.wellFormed hostMonitorJSON = .wellFormed (.object members) ∧
      (∀ f : Field, f.name ∈ members.map Prod.fst ↔ isEmptyValue (hostMonitor.get f) = false) ∧
      (∀ key ∈ members.map Prod.fst, ∃ f : Field, f.name = key) ∧
      members.map Prod.fst
        = (Field.all.filter (fun f => !isEmptyValue (hostMonitor.get f))).map Field.name) :=
  ⟨by rfl, (Marshal_omits_empty_fields natLib hostMonitor (.wellFormed hostMonitorJSON)
    (by rfl)).1⟩

/-! ## Round trip of the numbers and of the field values -/

theorem digitChar_toNat (d : Nat) (h : d < 10) : (digitChar d).toNat = 48 + d := by
  interval_cases d <;> rfl

theorem parseDigits_digitChar (d : Nat) (h : d < 10) (rest : List Char) (acc : Nat) :
    parseDigits (digitChar d :: rest) acc = parseDigits rest (acc * 10 + d) := by
  rw [parseDigits, digitChar_toNat d h, if_pos ⟨by omega, by omega⟩]
  congr 1
  omega

theorem parseDigits_formatDigits (fuel : Nat) :
    ∀ (n : Nat) (rest : List Char), n < 10 ^ fuel →
      parseDigits (formatDigits fuel n rest) 0 = parseDigits rest n := by
  induction fuel with
  | zero =>
    intro n rest h
    have : n = 0 := by simpa using h
    subst this
    rfl
  | succ fuel ih =>
    intro n rest h
    unfold formatDigits
    by_cases hn : n < 10
    · rw [if_pos hn, parseDigits_digitChar n hn]
      simp
    · rw [if_neg hn, ih (n / 10) _ (by rw [pow_succ] at h; omega),
        parseDigits_digitChar (n % 10) (Nat.mod_lt _ (by decide))]
      congr 1
      omega

theorem formatDigits_ne_nil (fuel : Nat) :
    ∀ (n : Nat) (rest : List Char), rest ≠ [] → formatDigits fuel n rest ≠ [] := by
  induction fuel with
  | zero => intro n rest h; exact h
  | succ fuel ih =>
    intro n rest _
    unfold formatDigits
    split
    · simp
    · exact ih _ _ (by simp)

theorem formatDigits_succ_ne_nil (fuel n : Nat) : formatDigits (fuel + 1) n [] ≠ [] := by
  unfold formatDigits
  split
  · simp
  · exact formatDigits_ne_nil fuel _ _ (by simp)

theorem ParseUint_FormatUint (n : Nat) (h : n < 18446744073709551616) :
    ParseUint (FormatUint n) = some n := by
  unfold ParseUint FormatUint
  have hne : (formatDigits 20 n []).isEmpty = false := by
    cases hx : formatDigits 20 n [] with
    | nil => exact absurd hx (formatDigits_succ_ne_nil 19 n)
    | cons c cs => rfl
  simp only [hne, Bool.false_eq_true, if_false]
  rw [parseDigits_formatDigits 20 n [] (by omega)]
  simp [parseDigits, h]

theorem decodeStrings_map_string (xs : List String) :
    decodeStrings (xs.map JSON.string) = .ok xs := by
  induction xs with
  | nil => rfl
  | cons x xs ih =>
    simp only [List.map_cons]
    unfold decodeStrings
    simp only [ih]

theorem Monitor.typeName_get (m m2 : Monitor) (f : Field) :
    (m.get f).typeName = (m2.get f).typeName := by
  cases f <;> rfl

theorem Monitor.get_set_self (m : Monitor) (f : Field) (v : Value)
    (h : v.typeName = (m.get f).typeName) : (m.set f v).get f = v := by
  cases f <;> cases v <;> first | rfl | (simp [Monitor.get, Value.typeName] at h)

theorem Monitor.get_set_ne (m : Monitor) (f g : Field) (v : Value) (h : f ≠ g) :
    (m.set f v).get g = m.get g := by
  cases f <;> cases g <;> cases v <;> first | rfl | (exact absurd rfl h)

theorem Monitor.ext_get (m m2 : Monitor) (h : ∀ f, m.get f = m2.get f) : m = m2 := by
  have h1 := h .ID
  have h2 := h .Name
  have h3 := h .Type_
  have h4 := h .Metric
  have h5 := h .Operator
  have h6 := h .Warning
  have h7 := h .Critical
  have h8 := h .Duration
  have h9 := h .URL
  have h10 := h .Scopes
  have h11 := h .Service
  have h12 := h .MaxCheckAttempts
  have h13 := h .ExcludeScopes
  have h14 := h .ResponseTimeCritical
  have h15 := h .ResponseTimeWarning
  have h16 := h .ResponseTimeDuration
  cases m
  cases m2
  simp only [Monitor.get, Value.string.injEq, Value.float64.injEq, Value.uint64.injEq,
    Value.strings.injEq] at h1 h2 h3 h4 h5 h6 h7 h8 h9 h10 h11 h12 h13 h14 h15 h16
  subst_vars
  rfl

theorem Field.byName_name (f : Field) : Field.byName f.name = some f := by
  cases f <;> decide

theorem Monitor.get_default (m : Monitor) (f : Field) :
    ({} : Monitor).get f = (m.get f).zeroLike := by
  cases f <;> rfl

theorem String.eq_empty_of_length (s : String) (h : s.length = 0) : s = "" := by
  cases s with
  | mk data =>
    have hd : data = [] := List.length_eq_zero.mp h
    subst hd
    rfl

theorem Value.eq_zeroLike_of_empty (lib : Lib) (v : Value) (hstable : v.stable lib = true)
    (hempty : isEmptyValue v = true) : v = v.zeroLike := by
  cases v with
  | string s =>
    simp only [isEmptyValue, beq_iff_eq] at hempty
    simp only [Value.zeroLike, Value.string.injEq]
    exact String.eq_empty_of_length s hempty
  | float64 f =>
    simp only [isEmptyValue] at hempty
    simp only [Value.stable, hempty, if_true, beq_iff_eq] at hstable
    simp only [Value.zeroLike, hstable]
  | uint64 n =>
    simp only [isEmptyValue, beq_iff_eq] at hempty
    simp only [Value.zeroLike, hempty]
  | strings xs =>
    cases xs with
    | none => rfl
    | some ys =>
      simp only [isEmptyValue, beq_iff_eq] at hempty
      simp [Value.stable, hempty] at hstable

theorem decodeValue_encodeValue (lib : Lib) (v : Value) (hstable : v.stable lib = true)
    (hne : isEmptyValue v = false) :
    ∃ j, encodeValue lib v = .ok j ∧
      ∀ old : Value, old.typeName = v.typeName → decodeValue lib old j = .ok v := by
  cases v with
  | string s =>
    refine ⟨.string s, rfl, ?_⟩
    intro old hold
    cases old <;> first | rfl | (simp [Value.typeName] at hold)
  | float64 f =>
    simp only [isEmptyValue] at hne
    simp only [Value.stable, hne, Bool.false_eq_true, if_false, Bool.and_eq_true,
      Bool.not_eq_true', beq_iff_eq] at hstable
    obtain ⟨⟨hnan, hinf⟩, hparse⟩ := hstable
    refine ⟨.number (lib.FormatFloat f), ?_, ?_⟩
    · simp [encodeValue, hnan, hinf]
    · intro old hold
      cases old <;> first | (simp [Value.typeName] at hold; done) | (simp [decodeValue, hparse])
  | uint64 n =>
    simp only [Value.stable, decide_eq_true_eq] at hstable
    refine ⟨.number (FormatUint n), rfl, ?_⟩
    intro old hold
    cases old <;>
      first | (simp [Value.typeName] at hold; done)
            | (simp [decodeValue, ParseUint_FormatUint n hstable])
  | strings xs =>
    cases xs with
    | none => simp [isEmptyValue] at hne
    | some ys =>
      refine ⟨.array (ys.map JSON.string), rfl, ?_⟩
      intro old hold
      cases old <;>
        first | (simp [Value.typeName] at hold; done)
              | (simp [decodeValue, decodeStrings_map_string])

/-! ## Round trip of a record -/

theorem decodeMembers_encodeFields (lib : Lib) (m : Monitor) (fs : List Field)
    (hstable : ∀ f ∈ fs, (m.get f).stable lib = true) :
    ∃ members, encodeFields lib m fs = .ok members ∧
      ∀ m0 : Monitor, ∃ m1, decodeMembers lib m0 members = .ok m1 ∧
        ∀ g, m1.get g
          = if g ∈ fs ∧ isEmptyValue (m.get g) = false then m.get g else m0.get g := by
  induction fs with
  | nil =>
    refine ⟨[], rfl, fun m0 => ⟨m0, rfl, fun g => ?_⟩⟩
    simp
  | cons f fs ih =>
    obtain ⟨rest, hrest, hdec⟩ := ih (fun g hg => hstable g (List.mem_cons_of_mem f hg))
    by_cases hempty : isEmptyValue (m.get f) = true
    · refine ⟨rest, ?_, fun m0 => ?_⟩
      · unfold encodeFields
        rw [if_pos hempty, hrest]
      · obtain ⟨m1, hm1, hget⟩ := hdec m0
        refine ⟨m1, hm1, fun g => ?_⟩
        rw [hget g]
        by_cases hgf : g = f
        · subst hgf
          simp [hempty]
        · simp [hgf]
    · have hne : isEmptyValue (m.get f) = false := by simpa using hempty
      obtain ⟨j, hj, hback⟩ :=
        decodeValue_encodeValue lib (m.get f) (hstable f (List.mem_cons_self f fs)) hne
      refine ⟨(f.name, j) :: rest, ?_, fun m0 => ?_⟩
      · unfold encodeFields
        rw [if_neg hempty, hj]
        dsimp only
        rw [hrest]
      · obtain ⟨m1, hm1, hget⟩ := hdec (m0.set f (m.get f))
        refine ⟨m1, ?_, fun g => ?_⟩
        · unfold decodeMembers
          rw [Field.byName_name]
          dsimp only
          rw [hback (m0.get f) (Monitor.typeName_get m0 m f)]
          exact hm1
        · rw [hget g]
          by_cases hgf : g = f
          · subst hgf
            rw [Monitor.get_set_self m0 g (m.get g) (Monitor.typeName_get m m0 g)]
            simp [hne]
          · rw [Monitor.get_set_ne m0 f g (m.get f) (fun h => hgf h.symm)]
            simp [hgf]

/-- C1 (amended): for every `Monitor` whose fields are all stable (each slice is
nil or has an element, each float64 is positive zero or a finite non-zero number
that `strconv` reads back from what it wrote, the duration fits 64 bits),
encoding succeeds and decoding the encoding into a fresh record gives the
record back, field for field. -/
theorem decodeEncode_of_stable (lib : Lib) (m : Monitor) (h : m.stable lib = true) :
    decodeEncode lib m = .ok m := by
  have hall : ∀ f ∈ Field.all, (m.get f).stable lib = true := by
    intro f hf
    exact List.all_eq_true.mp h f hf
  obtain ⟨members, henc, hdec⟩ := decodeMembers_encodeFields lib m Field.all hall
  obtain ⟨m1, hm1, hget⟩ := hdec {}
  unfold decodeEncode
  rw [Marshal_some, henc]
  dsimp only [Unmarshal, decodeMonitor]
  rw [hm1]
  congr 1
  apply Monitor.ext_get
  intro g
  rw [hget g]
  by_cases hempty : isEmptyValue (m.get g) = true
  · rw [if_neg (by simp [hempty]), Monitor.get_default m g]
    exact (Value.eq_zeroLike_of_empty lib (m.get g) (hall g (Field.mem_all g)) hempty).symm
  · rw [if_pos ⟨Field.mem_all g, by simpa using hempty⟩]

theorem decodeEncode_of_stable_witness :
    hostMonitor.stable natLib = true ∧ decodeEncode natLib hostMonitor = .ok hostMonitor :=
  ⟨by decide, decodeEncode_of_stable natLib hostMonitor (by decide)⟩

/-- C1 fails as stated: the connectivity monitor of the example response, whose
two slices are empty but not nil, is encoded without them and comes back with
nil slices, a different record. -/
theorem decodeEncode_connectivityMonitor :
    decodeEncode natLib connectivityMonitor
        = .ok { ID := "2cSZzK3XfmG", Type_ := "connectivity" } ∧
    ({ ID := "2cSZzK3XfmG", Type_ := "connectivity" } : Monitor) ≠ connectivityMonitor :=
  ⟨by rfl, by decide⟩

/-! ## The id of a created monitor -/

theorem decodeMembers_append (lib : Lib) (pre post : List (String × JSON)) :
    ∀ m : Monitor, decodeMembers lib m (pre ++ post) =
      match decodeMembers lib m pre with
      | .error e => .error e
      | .ok m1 => decodeMembers lib m1 post := by
  induction pre with
  | nil => intro m; rfl
  | cons kv pre ih =>
    intro m
    obtain ⟨key, j⟩ := kv
    rw [List.cons_append, decodeMembers, decodeMembers]
    cases Field.byName key with
    | none => exact ih m
    | some f =>
      dsimp only
      cases decodeValue lib (m.get f) j with
      | error e => rfl
      | ok v => exact ih _

theorem decodeMembers_preserves (lib : Lib) (f : Field) (members : List (String × JSON))
    (h : members.all (fun kv => !(Field.byName kv.1 == some f)) = true) :
    ∀ m m1 : Monitor, decodeMembers lib m members = .ok m1 → m1.get f = m.get f := by
  induction members with
  | nil =>
    intro m m1 hdec
    simp only [decodeMembers, Except.ok.injEq] at hdec
    rw [hdec]
  | cons kv rest ih =>
    intro m m1 hdec
    obtain ⟨key, j⟩ := kv
    simp only [List.all_cons, Bool.and_eq_true, Bool.not_eq_true', beq_eq_false_iff_ne] at h
    unfold decodeMembers at hdec
    cases hkey : Field.byName key with
    | none =>
      rw [hkey] at hdec
      exact ih h.2 m m1 hdec
    | some g =>
      rw [hkey] at hdec
      dsimp only at hdec
      cases hv : decodeValue lib (m.get g) j with
      | error e => rw [hv] at hdec; cases hdec
      | ok v =>
        rw [hv] at hdec
        rw [ih h.2 _ m1 hdec]
        apply Monitor.get_set_ne
        intro hgf
        apply h.1
        rw [hkey, hgf]

/-- C4: whenever the transport answers the request of `CreateMonitor` with a
body that is a JSON object representing a `Monitor` (it decodes into a record)
and carrying the id `i` (its last `id` member is the string `i`), the call
succeeds and the `ID` of the record it returns is `i`, whatever the input
`Monitor` and its own `ID`. -/
theorem CreateMonitor_returns_id (lib : Lib) (c : Client) (param : Option Monitor)
    (req : HTTPRequest) (resp : Response) (pre post : List (String × JSON)) (i : String)
    (m : Monitor) (hsent : (CreateMonitor lib c param).sent = [req])
    (hresp : c.Request req = .ok resp) (hread : resp.Body.readErr = none)
    (hbody : resp.Body.data = .wellFormed (.object (pre ++ ("id", .string i) :: post)))
    (hpost : post.all (fun kv => !(Field.byName kv.1 == some Field.ID)) = true)
    (hdec : decodeMembers lib {} (pre ++ ("id", .string i) :: post) = .ok m) :
    (CreateMonitor lib c param).result = .ok m ∧ m.ID = i := by
  constructor
  · rw [CreateMonitor_eq, CreateMonitor_request_of_sent lib c param req hsent,
      exchange_result_of_response lib c req resp hresp hread, hbody]
    exact hdec
  · rw [decodeMembers_append] at hdec
    cases hpre : decodeMembers lib {} pre with
    | error e => rw [hpre] at hdec; cases hdec
    | ok m1 =>
      rw [hpre] at hdec
      dsimp only at hdec
      unfold decodeMembers at hdec
      rw [show Field.byName "id" = some Field.ID by decide] at hdec
      dsimp only at hdec
      rw [show decodeValue lib (m1.get Field.ID) (.string i) = .ok (.string i) by rfl] at hdec
      dsimp only at hdec
      have hkeep := decodeMembers_preserves lib Field.ID post hpost _ m hdec
      have hset : (m1.set Field.ID (.string i)).get Field.ID = .string i := rfl
      rw [hset] at hkeep
      simp only [Monitor.get, Value.string.injEq] at hkeep
      exact hkeep

theorem CreateMonitor_returns_id_witness :
    (CreateMonitor natLib (answering 200 (freshBody createdBody)) (some hostMonitor)).result
        = .ok { hostMonitor with ID := "2cSZzK3XfmG" } ∧
    ({ hostMonitor with ID := "2cSZzK3XfmG" } : Monitor).ID = "2cSZzK3XfmG" :=
  CreateMonitor_returns_id natLib (answering 200 (freshBody createdBody)) (some hostMonitor)
    ⟨"POST", ⟨"https://api.mackerelio.com/api/v0/monitors"⟩,
      [("Content-Type", "application/json")], some (.wellFormed hostMonitorJSON)⟩
    ⟨200, freshBody createdBody⟩ []
    [("name", .string "disk.aa-00.writes.delta"),
      ("type", .string "host"), ("metric", .string "disk.aa-00.writes.delta"),
      ("operator", .string ">"), ("warning", .number "20000"), ("critical", .number "400000"),
      ("duration", .number "3"), ("scopes", .array [.string "SomeService"])]
    "2cSZzK3XfmG" { hostMonitor with ID := "2cSZzK3XfmG" }
    (by rfl) (by rfl) (by rfl) (by rfl) (by decide) (by rfl)

/-! ## The list of monitors -/

theorem decodeMonitorPtrs_of_represents (lib : Lib) (elems : List JSON) (ms : List Monitor)
    (h : List.Forall₂ (representsMonitor lib) elems ms) :
    decodeMonitorPtrs lib elems = .ok (ms.map some) := by
  induction h with
  | nil => rfl
  | cons hj _ ih =>
    obtain ⟨members, hobj, hdec⟩ := hj
    subst hobj
    unfold decodeMonitorPtrs
    simp only [decodeMonitor, hdec, ih, List.map_cons]

theorem decodeDataMembers_skip (lib : Lib) (members : List (String × JSON))
    (h : members.all (fun kv => !isMonitorsKey kv.1) = true) :
    ∀ d : MonitorsData, decodeDataMembers lib d members = .ok d := by
  induction members with
  | nil => intro d; rfl
  | cons kv rest ih =>
    intro d
    obtain ⟨key, j⟩ := kv
    simp only [List.all_cons, Bool.and_eq_true, Bool.not_eq_true'] at h
    unfold decodeDataMembers
    simp only [h.1, Bool.false_eq_true, if_false]
    exact ih h.2 d

theorem decodeDataMembers_monitors (lib : Lib) (pre post : List (String × JSON))
    (elems : List JSON) (ms : List (Option Monitor))
    (hpre : pre.all (fun kv => !isMonitorsKey kv.1) = true)
    (hpost : post.all (fun kv => !isMonitorsKey kv.1) = true)
    (helems : decodeMonitorPtrs lib elems = .ok ms) :
    ∀ d : MonitorsData,
      decodeDataMembers lib d (pre ++ ("monitors", .array elems) :: post)
        = .ok { Monitors := some ms } := by
  induction pre with
  | nil =>
    intro d
    rw [List.nil_append]
    unfold decodeDataMembers
    rw [if_pos (by decide)]
    simp only [helems]
    exact decodeDataMembers_skip lib post hpost _
  | cons kv pre ih =>
    intro d
    obtain ⟨key, j⟩ := kv
    simp only [List.all_cons, Bool.and_eq_true, Bool.not_eq_true'] at hpre
    rw [List.cons_append]
    unfold decodeDataMembers
    simp only [hpre.1, Bool.false_eq_true, if_false]
    exact ih hpre.2 d

/-- C3: whenever the transport answers the request of `FindMonitors` with
status 200 and a body that is a JSON object whose `monitors` member is an array
of N objects, each representing a `Monitor`, the call succeeds and returns
exactly N records, in the order of the array, the i-th being the decoding of
the i-th element. -/
theorem FindMonitors_returns_all (lib : Lib) (c : Client) (req : HTTPRequest) (resp : Response)
    (pre post : List (String × JSON)) (elems : List JSON) (ms : List Monitor)
    (hsent : (FindMonitors lib c).sent = [req]) (hresp : c.Request req = .ok resp)
    (hstatus : resp.StatusCode = 200) (hread : resp.Body.readErr = none)
    (hbody : resp.Body.data
      = .wellFormed (.object (pre ++ ("monitors", .array elems) :: post)))
    (hothers : (pre ++ post).all (fun kv => !isMonitorsKey kv.1) = true)
    (helems : List.Forall₂ (representsMonitor lib) elems ms) :
    (FindMonitors lib c).result = .ok (some (ms.map some)) ∧
      (ms.map some).length = elems.length := by
  refine ⟨?_, by rw [List.length_map]; exact helems.length_eq.symm⟩
  rw [List.all_append, Bool.and_eq_true] at hothers
  rw [FindMonitors_result_of_response lib c req resp hsent hresp,
    if_neg (not_not.mpr hstatus), ReadAll_of_no_error _ hread]
  dsimp only
  rw [hbody]
  simp only [UnmarshalData]
  rw [decodeDataMembers_monitors lib pre post elems (ms.map some) hothers.1 hothers.2
    (decodeMonitorPtrs_of_represents lib elems ms helems)]

theorem FindMonitors_returns_all_witness :
    (FindMonitors natLib (answering 200 (freshBody exampleBody))).result
        = .ok (some ([connectivityMonitor, listedHostMonitor, serviceMonitor,
            externalMonitor].map some)) ∧
      ([connectivityMonitor, listedHostMonitor, serviceMonitor, externalMonitor].map some).length
        = exampleElems.length :=
  FindMonitors_returns_all natLib (answering 200 (freshBody exampleBody))
    ⟨"GET", ⟨"https://api.mackerelio.com/api/v0/monitors"⟩, [], none⟩
    ⟨200, freshBody exampleBody⟩ [] [] exampleElems
    [connectivityMonitor, listedHostMonitor, serviceMonitor, externalMonitor]
    (by rfl) (by rfl) (by rfl) (by rfl) (by rfl) (by rfl)
    (.cons ⟨_, rfl, by rfl⟩ (.cons ⟨_, rfl, by rfl⟩ (.cons ⟨_, rfl, by rfl⟩
      (.cons ⟨_, rfl, by rfl⟩ .nil))))

end Mackerel
